import Mathlib

/-!
Formal model of `src/services/AudioOutputService.js` from the
`gemini-live-api-audio-react-native` repository: the audio output pipeline
(WAV container encoder, chunk aggregator, playback queue, temp-file janitor),
together with theorems about its behaviour.

Modelling conventions:
* JS byte buffers (`Buffer`, `Uint8Array`, `ArrayBuffer`) are `List Nat`,
  one entry per byte;
* JS strings are `String`;
* the module-level mutable state (`isPlaying`, `audioQueue`,
  `bufferAggregator`, `bufferTimer`) is an explicit state record with a step
  function over the service's events (chunk submission, the aggregation
  deadline timer firing, render completion / failure callbacks, queue clear);
* the asynchronous platform decoder / player is an external collaborator: a
  render that has been started completes or fails later through a
  `renderComplete` / `renderFailure` event.
-/

namespace AudioOutputService

/-! ### Module constants (source lines 12-18) -/

def OUTPUT_SAMPLE_RATE : Nat := 24000

def OUTPUT_CHANNELS : Nat := 1

def OUTPUT_BITS_PER_SAMPLE : Nat := 16

def BUFFER_CHUNK_THRESHOLD : Nat := 3

def MAX_BUFFER_WAIT_MS : Nat := 300

/-! ### Byte-level helpers for the WAV header -/

/-- Bytes stored by `buffer.writeUInt16LE(v, off)` for an in-range value. -/
def u16le (v : Nat) : List Nat := [v % 256, v / 256 % 256]

/-- Bytes stored by `buffer.writeUInt32LE(v, off)` for an in-range value. -/
def u32le (v : Nat) : List Nat :=
  [v % 256, v / 256 % 256, v / 65536 % 256, v / 16777216 % 256]

/-- Bytes stored by `buffer.write(s, off)` for an ASCII string. -/
def asciiBytes (s : String) : List Nat := s.data.map Char.toNat

/-- Reads two bytes at offset `i` as a little-endian 16-bit value. -/
def readU16LE (w : List Nat) (i : Nat) : Nat :=
  match w.drop i with
  | b0 :: b1 :: _ => b0 + 256 * b1
  | _ => 0

/-- Reads four bytes at offset `i` as a little-endian 32-bit value. -/
def readU32LE (w : List Nat) (i : Nat) : Nat :=
  match w.drop i with
  | b0 :: b1 :: b2 :: b3 :: _ => b0 + 256 * b1 + 65536 * b2 + 16777216 * b3
  | _ => 0

/-! ### The WAV container encoder (source lines 152-240) -/

/-- Model of `_createWavHeader(sampleRate, bitsPerSample, numChannels,
dataLength)` (source lines 181-211).  The source allocates `Buffer.alloc(44)`
and performs non-overlapping writes at offsets 0, 4, 8, 12, 16, 20, 22, 24,
28, 32, 34, 36 and 40 that together cover all 44 bytes, so the header is the
concatenation of the written fields in offset order.  JS computes `byteRate`
and `blockAlign` with float division; for inputs where `8` divides
`numChannels * bitsPerSample` (in particular the 16-bit formats the service
uses) this agrees with the `Nat` division used here. -/
def _createWavHeader (sampleRate bitsPerSample numChannels dataLength : Nat) :
    List Nat :=
  let byteRate := sampleRate * numChannels * bitsPerSample / 8
  let blockAlign := numChannels * bitsPerSample / 8
  asciiBytes "RIFF" ++ u32le (36 + dataLength) ++ asciiBytes "WAVE"
    ++ asciiBytes "fmt " ++ u32le 16 ++ u16le 1 ++ u16le numChannels
    ++ u32le sampleRate ++ u32le byteRate ++ u16le blockAlign
    ++ u16le bitsPerSample ++ asciiBytes "data" ++ u32le dataLength

/-- Model of `_combineWavData(header, pcmData)` (source lines 219-240): the
header bytes immediately followed by the PCM bytes. -/
def _combineWavData (header pcmData : List Nat) : List Nat :=
  header ++ pcmData

/-- Model of `_createWavFromPcm(pcmData, sampleRate, numChannels,
bitsPerSample)` (source lines 152-171). -/
def _createWavFromPcm (pcmData : List Nat)
    (sampleRate numChannels bitsPerSample : Nat) : List Nat :=
  _combineWavData
    (_createWavHeader sampleRate bitsPerSample numChannels pcmData.length)
    pcmData

/-- The header unfolded to its 44 bytes, for byte-offset reasoning. -/
theorem createWavHeader_bytes (r b c L : Nat) :
    _createWavHeader r b c L =
      [82, 73, 70, 70,
       (36 + L) % 256, (36 + L) / 256 % 256, (36 + L) / 65536 % 256,
         (36 + L) / 16777216 % 256,
       87, 65, 86, 69,
       102, 109, 116, 32,
       16, 0, 0, 0,
       1, 0,
       c % 256, c / 256 % 256,
       r % 256, r / 256 % 256, r / 65536 % 256, r / 16777216 % 256,
       r * c * b / 8 % 256, r * c * b / 8 / 256 % 256,
         r * c * b / 8 / 65536 % 256, r * c * b / 8 / 16777216 % 256,
       c * b / 8 % 256, c * b / 8 / 256 % 256,
       b % 256, b / 256 % 256,
       100, 97, 116, 97,
       L % 256, L / 256 % 256, L / 65536 % 256, L / 16777216 % 256] := rfl

/-- `_createWavFromPcm` is the header followed by the payload. -/
theorem createWavFromPcm_bytes (pcm : List Nat) (r c b : Nat) :
    _createWavFromPcm pcm r c b
      = _createWavHeader r b c pcm.length ++ pcm := rfl

set_option maxHeartbeats 1000000 in
/-- Claim C1: for every payload of length `L`, sample rate `r`, channel count
`c` and bit depth `b` (within the ranges `Buffer.writeUIntXXLE` accepts, and
with `8 ∣ c * b` so that the JS float divisions are exact), the encoder
produces a 44-byte header followed immediately by the payload, with ChunkID
"RIFF"@0, ChunkSize `36 + L`@4, Format "WAVE"@8, Subchunk1ID "fmt "@12,
Subchunk1Size 16@16, AudioFormat 1 (linear PCM)@20, NumChannels `c`@22,
SampleRate `r`@24, ByteRate `r*c*b/8`@28, BlockAlign `c*b/8`@32,
BitsPerSample `b`@34, Subchunk2ID "data"@36, Subchunk2Size `L`@40, all
multi-byte fields little-endian. -/
theorem C1_wav_container_layout (pcm : List Nat) (r c b : Nat)
    (hdiv : c * b % 8 = 0)
    (hL : 36 + pcm.length < 4294967296)
    (hr : r < 4294967296)
    (hc : c < 65536)
    (hb : b < 65536)
    (hbr : r * c * b / 8 < 4294967296)
    (hba : c * b / 8 < 65536) :
    (_createWavFromPcm pcm r c b).length = 44 + pcm.length
    ∧ (_createWavFromPcm pcm r c b).take 4 = asciiBytes "RIFF"
    ∧ readU32LE (_createWavFromPcm pcm r c b) 4 = 36 + pcm.length
    ∧ ((_createWavFromPcm pcm r c b).drop 8).take 4 = asciiBytes "WAVE"
    ∧ ((_createWavFromPcm pcm r c b).drop 12).take 4 = asciiBytes "fmt "
    ∧ readU32LE (_createWavFromPcm pcm r c b) 16 = 16
    ∧ readU16LE (_createWavFromPcm pcm r c b) 20 = 1
    ∧ readU16LE (_createWavFromPcm pcm r c b) 22 = c
    ∧ readU32LE (_createWavFromPcm pcm r c b) 24 = r
    ∧ readU32LE (_createWavFromPcm pcm r c b) 28 = r * c * b / 8
    ∧ readU16LE (_createWavFromPcm pcm r c b) 32 = c * b / 8
    ∧ readU16LE (_createWavFromPcm pcm r c b) 34 = b
    ∧ ((_createWavFromPcm pcm r c b).drop 36).take 4 = asciiBytes "data"
    ∧ readU32LE (_createWavFromPcm pcm r c b) 40 = pcm.length
    ∧ (_createWavFromPcm pcm r c b).drop 44 = pcm := by
  rw [createWavFromPcm_bytes, createWavHeader_bytes]
  refine ⟨?_, rfl, ?_, rfl, rfl, ?_, ?_, ?_, ?_, ?_, ?_, ?_, rfl, ?_, rfl⟩
  · simp
    omega
  · show (36 + pcm.length) % 256 + 256 * ((36 + pcm.length) / 256 % 256)
        + 65536 * ((36 + pcm.length) / 65536 % 256)
        + 16777216 * ((36 + pcm.length) / 16777216 % 256) = 36 + pcm.length
    omega
  · show 16 % 256 + 256 * (0 % 256) + 65536 * (0 % 256)
        + 16777216 * (0 % 256) = 16
    omega
  · show 1 % 256 + 256 * (0 % 256) = 1
    omega
  · show c % 256 + 256 * (c / 256 % 256) = c
    omega
  · show r % 256 + 256 * (r / 256 % 256) + 65536 * (r / 65536 % 256)
        + 16777216 * (r / 16777216 % 256) = r
    omega
  · show r * c * b / 8 % 256 + 256 * (r * c * b / 8 / 256 % 256)
        + 65536 * (r * c * b / 8 / 65536 % 256)
        + 16777216 * (r * c * b / 8 / 16777216 % 256) = r * c * b / 8
    omega
  · show c * b / 8 % 256 + 256 * (c * b / 8 / 256 % 256) = c * b / 8
    omega
  · show b % 256 + 256 * (b / 256 % 256) = b
    omega
  · show pcm.length % 256 + 256 * (pcm.length / 256 % 256)
        + 65536 * (pcm.length / 65536 % 256)
        + 16777216 * (pcm.length / 16777216 % 256) = pcm.length
    omega

/-- Claim C1, instantiated: the layout theorem evaluated at a concrete
3-byte payload, 24000 Hz, mono, 16-bit. -/
theorem C1_wav_container_layout_witness :
    (_createWavFromPcm [1, 2, 3] 24000 1 16).length = 47
    ∧ (_createWavFromPcm [1, 2, 3] 24000 1 16).take 4 = asciiBytes "RIFF"
    ∧ readU32LE (_createWavFromPcm [1, 2, 3] 24000 1 16) 4 = 39
    ∧ ((_createWavFromPcm [1, 2, 3] 24000 1 16).drop 8).take 4
        = asciiBytes "WAVE"
    ∧ ((_createWavFromPcm [1, 2, 3] 24000 1 16).drop 12).take 4
        = asciiBytes "fmt "
    ∧ readU32LE (_createWavFromPcm [1, 2, 3] 24000 1 16) 16 = 16
    ∧ readU16LE (_createWavFromPcm [1, 2, 3] 24000 1 16) 20 = 1
    ∧ readU16LE (_createWavFromPcm [1, 2, 3] 24000 1 16) 22 = 1
    ∧ readU32LE (_createWavFromPcm [1, 2, 3] 24000 1 16) 24 = 24000
    ∧ readU32LE (_createWavFromPcm [1, 2, 3] 24000 1 16) 28 = 48000
    ∧ readU16LE (_createWavFromPcm [1, 2, 3] 24000 1 16) 32 = 2
    ∧ readU16LE (_createWavFromPcm [1, 2, 3] 24000 1 16) 34 = 16
    ∧ ((_createWavFromPcm [1, 2, 3] 24000 1 16).drop 36).take 4
        = asciiBytes "data"
    ∧ readU32LE (_createWavFromPcm [1, 2, 3] 24000 1 16) 40 = 3
    ∧ (_createWavFromPcm [1, 2, 3] 24000 1 16).drop 44 = [1, 2, 3] :=
  C1_wav_container_layout [1, 2, 3] 24000 1 16 (by decide) (by decide)
    (by decide) (by decide) (by decide) (by decide) (by decide)

/-! ### Base64 decoding (`Buffer.from(s, "base64")`)

Node's base64 decoder maps alphabet characters to 6-bit values, ignores
characters outside the alphabet (including `=` padding and whitespace), and
packs the resulting sextets into bytes: 4 sextets give 3 bytes, a trailing
group of 3 gives 2 bytes, a trailing group of 2 gives 1 byte, and a trailing
single sextet is discarded. -/

/-- 6-bit value of a base64 alphabet character, `none` for other characters. -/
def b64Val (ch : Char) : Option Nat :=
  if 'A' ≤ ch ∧ ch ≤ 'Z' then some (ch.toNat - 65)
  else if 'a' ≤ ch ∧ ch ≤ 'z' then some (ch.toNat - 97 + 26)
  else if '0' ≤ ch ∧ ch ≤ '9' then some (ch.toNat - 48 + 52)
  else if ch = '+' then some 62
  else if ch = '/' then some 63
  else none

/-- Packs a list of 6-bit values into bytes. -/
def packSextets : List Nat → List Nat
  | a :: b :: cc :: d :: rest =>
      (a * 4 + b / 16) :: (b % 16 * 16 + cc / 4) :: (cc % 4 * 64 + d)
        :: packSextets rest
  | [a, b] => [a * 4 + b / 16]
  | [a, b, cc] => [a * 4 + b / 16, b % 16 * 16 + cc / 4]
  | _ => []

/-- Model of `Buffer.from(s, "base64")`. -/
def base64Decode (s : String) : List Nat :=
  packSextets (s.data.filterMap b64Val)

/-! ### Sample-rate annotations in a chunk's mimeType

Both `_combineAudioChunks` (source lines 517-523) and `_processQueue` (source
lines 351-357) run `mimeType.includes("rate=")` followed by
`mimeType.match(/rate=(\d+)/)` and `parseInt(match[1], 10)`.  The regex finds
the leftmost occurrence of `rate=` that is immediately followed by at least
one ASCII digit and captures the maximal digit run after it. -/

/-- Parses a maximal leading digit run, accumulating into `acc`
(`parseInt(digits, 10)`). -/
def digitRun : List Char → Nat → Nat
  | ch :: cs, acc => if ch.isDigit then digitRun cs (acc * 10 + (ch.toNat - 48))
      else acc
  | [], acc => acc

/-- Leftmost match of `/rate=(\d+)/`: scans for `rate=` followed by a digit
and returns the value of the maximal digit run. -/
def findRate : List Char → Option Nat
  | 'r' :: 'a' :: 't' :: 'e' :: '=' :: d :: rest =>
      if d.isDigit then some (digitRun (d :: rest) 0)
      else findRate ('a' :: 't' :: 'e' :: '=' :: d :: rest)
  | _ :: cs => findRate cs
  | [] => none

/-- Model of `mimeType.includes("rate=")`. -/
def hasRateKey : List Char → Bool
  | 'r' :: 'a' :: 't' :: 'e' :: '=' :: _ => true
  | _ :: cs => hasRateKey cs
  | [] => false

/-- The sample rate a mimeType (a JS string or `undefined`) declares: the
source guards with `mimeType && mimeType.includes("rate=")` (an empty string
is falsy) and then assigns `parseInt(match[1])` only when the regex matches.
-/
def mimeRate : Option String → Option Nat
  | some s => if s.isEmpty = false ∧ hasRateKey s.data then findRate s.data
      else none
  | none => none

/-! ### The chunk data model

The service receives arbitrary JS values.  The shapes the pipeline
distinguishes are byte buffers (`ArrayBuffer`/`Uint8Array`/`Buffer`), strings
(treated as base64), objects matching `chunk.type === "audio" && chunk.data`
(with a `data` field and an optional `mimeType` string), and everything else.
-/

/-- The value of a tagged chunk's `data` field: a byte buffer, a string, or
some other JS value.  `.otherVal t` stands for a value of any other shape,
with `t` recording its JS truthiness. -/
inductive JSData where
  | bytes (bs : List Nat)
  | jsStr (s : String)
  | otherVal (truthyFlag : Bool)
deriving Repr, DecidableEq

/-- JS truthiness of a `data` value (`""` is falsy, buffers are objects and
hence truthy). -/
def JSData.truthy : JSData → Bool
  | .bytes _ => true
  | .jsStr s => !s.isEmpty
  | .otherVal t => t

/-- A value submitted to `playAudioChunk` or held in `audioQueue`.
`.audioObj d m` is an object with `type === "audio"`, a `data` field `d` and
`mimeType` `m` (where `some ""` is a present-but-falsy mimeType);
`.unsupported t` is a truthiness-`t` value of any other shape (an object
without the audio tag, a number, ...). -/
inductive Chunk where
  | bytes (bs : List Nat)
  | b64 (s : String)
  | audioObj (d : JSData) (mime : Option String)
  | unsupported (truthyFlag : Bool)
deriving Repr, DecidableEq

/-- JS truthiness of a chunk value. -/
def Chunk.truthy : Chunk → Bool
  | .bytes _ => true
  | .b64 s => !s.isEmpty
  | .audioObj _ _ => true
  | .unsupported t => t

/-! ### `_combineAudioChunks` (source lines 492-561) -/

/-- The result of merging a window: the combined PCM bytes and the sample
rate chosen for them. -/
structure CombineResult where
  data : List Nat
  sampleRate : Nat
deriving Repr, DecidableEq

/-- One iteration of the `for (const chunk of chunks)` loop (source lines
505-541): returns the `pcmData` kept for this chunk (`none` when the chunk is
skipped by the final `instanceof Uint8Array` check) and the updated
`sampleRate` variable.  A tagged object with truthy `data` contributes its
`data` field (buffers only; a string `data` is not decoded and fails the
`Uint8Array` check) and may overwrite `sampleRate` from its mimeType; a
string chunk is base64-decoded; a buffer chunk is kept as is; everything
else, including a tagged object with falsy `data`, falls into the raw-data
branch and is dropped by the `Uint8Array` check. -/
def combineChunkStep (chunk : Chunk) (sampleRate : Nat) :
    Option (List Nat) × Nat :=
  match chunk with
  | .audioObj d m =>
      if d.truthy then
        let rate' :=
          match mimeRate m with
          | some v => v
          | none => sampleRate
        (match d with
         | .bytes bs => some bs
         | _ => none, rate')
      else (none, sampleRate)
  | .b64 s => (some (base64Decode s), sampleRate)
  | .bytes bs => (some bs, sampleRate)
  | .unsupported _ => (none, sampleRate)

/-- The loop of `_combineAudioChunks`: accumulates `pcmDataArray` and the
`sampleRate` variable across the chunks. -/
def combineLoop : List Chunk → List (List Nat) → Nat → List (List Nat) × Nat
  | [], acc, sampleRate => (acc, sampleRate)
  | chunk :: rest, acc, sampleRate =>
      let st := combineChunkStep chunk sampleRate
      combineLoop rest
        (match st.1 with
         | some p => acc ++ [p]
         | none => acc)
        st.2

/-- Model of `_combineAudioChunks(chunks)` (source lines 492-561): `null` for
an empty window, otherwise the concatenation of the kept chunks' bytes in
arrival order together with the final `sampleRate` (initially
`OUTPUT_SAMPLE_RATE`). -/
def _combineAudioChunks (chunks : List Chunk) : Option CombineResult :=
  if chunks.isEmpty then none
  else
    let st := combineLoop chunks [] OUTPUT_SAMPLE_RATE
    some ⟨st.1.flatten, st.2⟩

/-- The log warnings the `_combineAudioChunks` chunk loop emits while
scanning a window.  The loop body (source lines 505-541) contains no
`console.warn` (or any other per-chunk log) call in any branch: chunks that
fail the shape checks are skipped silently, so the emitted warning list is
empty for every window. -/
def combineWarnLog (chunks : List Chunk) : List String :=
  chunks.foldl (fun acc _ => acc) []

/-! ### Spec-side characterisation of a single chunk -/

/-- The PCM bytes a chunk contributes to a merge, independent of the running
sample rate (spec-side view of `combineChunkStep`). -/
def chunkPcm : Chunk → Option (List Nat)
  | .audioObj d _ =>
      if d.truthy then
        match d with
        | .bytes bs => some bs
        | _ => none
      else none
  | .b64 s => some (base64Decode s)
  | .bytes bs => some bs
  | .unsupported _ => none

/-- The sample rate a chunk declares: the rate annotation in the mimeType of
a tagged audio object (with truthy data), if any. -/
def declaredRate : Chunk → Option Nat
  | .audioObj d m => if d.truthy then mimeRate m else none
  | _ => none

/-- A well-formed chunk: one of the three supported shapes (byte buffer,
base64 string, tagged audio object with binary data) that also passes the
entry truthiness guard. -/
def wellFormedChunk (c : Chunk) : Prop :=
  c.truthy = true ∧ (chunkPcm c).isSome = true

instance (c : Chunk) : Decidable (wellFormedChunk c) :=
  inferInstanceAs (Decidable (c.truthy = true ∧ (chunkPcm c).isSome = true))

/-- The payload of a well-formed chunk. -/
def chunkPayload (c : Chunk) : List Nat :=
  (chunkPcm c).getD []

theorem combineChunkStep_fst (c : Chunk) (r : Nat) :
    (combineChunkStep c r).1 = chunkPcm c := by
  cases c with
  | audioObj d m => cases d <;> simp [combineChunkStep, chunkPcm] <;> split
      <;> rfl
  | bytes bs => rfl
  | b64 s => rfl
  | unsupported t => rfl

theorem combineChunkStep_snd (c : Chunk) (r : Nat) :
    (combineChunkStep c r).2 = (declaredRate c).getD r := by
  cases c with
  | audioObj d m =>
      simp only [combineChunkStep, declaredRate]
      split
      · cases h : mimeRate m <;> cases d <;> simp [h]
      · simp
  | bytes bs => rfl
  | b64 s => rfl
  | unsupported t => rfl

theorem combineLoop_spec (cs : List Chunk) :
    ∀ (acc : List (List Nat)) (r : Nat),
      combineLoop cs acc r
        = (acc ++ cs.filterMap chunkPcm,
           ((cs.filterMap declaredRate).getLast?).getD r) := by
  induction cs with
  | nil => intro acc r; simp [combineLoop]
  | cons c rest ih =>
      intro acc r
      rw [combineLoop, ih, combineChunkStep_fst, combineChunkStep_snd]
      rw [Prod.mk.injEq]
      constructor
      · cases h : chunkPcm c <;> simp [h, List.filterMap_cons]
      · cases h : declaredRate c with
        | none => simp [h, List.filterMap_cons]
        | some d =>
            simp only [h, List.filterMap_cons, Option.getD_some]
            cases hrest : rest.filterMap declaredRate with
            | nil => simp
            | cons x xs =>
                have hs : (x :: xs).getLast?.isSome := by simp
                obtain ⟨y, hy⟩ := Option.isSome_iff_exists.mp hs
                simp [List.getLast?_cons_cons, hy]

/-- `_combineAudioChunks` on a nonempty window: the data is the concatenation
of the kept chunks' bytes in order, and the sample rate is the last declared
rate, defaulting to `OUTPUT_SAMPLE_RATE`. -/
theorem combineAudioChunks_spec (cs : List Chunk) (h : cs ≠ []) :
    _combineAudioChunks cs
      = some ⟨(cs.filterMap chunkPcm).flatten,
              ((cs.filterMap declaredRate).getLast?).getD OUTPUT_SAMPLE_RATE⟩
    := by
  rw [_combineAudioChunks]
  simp only [List.isEmpty_iff, h, if_false, combineLoop_spec,
    List.nil_append]

/-! ### `_processQueue` item handling (source lines 336-449)

After shifting an item off `audioQueue`, `_processQueue` extracts the
`audioData` value and an optional `sampleRate` (for tagged audio objects),
validates `audioData`, and builds a WAV container from it.  `processItem`
models this synchronous part: it returns the WAV bytes handed to
`decodeAudioData`, or `none` when the item is discarded (null/empty data,
unsupported format, or the wav-size validation failing), in which case
`_processQueue` resets `isPlaying` and immediately recurses to the next
item. -/

/-- The `audioData` local: the item's `data` field for a tagged audio object
with truthy data, otherwise the item itself (legacy format). -/
def itemAudioData : Chunk → JSData
  | .audioObj d _ =>
      if d.truthy then d
      else .otherVal true
  | .b64 s => .jsStr s
  | .bytes bs => .bytes bs
  | .unsupported t => .otherVal t

/-- The `sampleRate` local: parsed from the mimeType of a tagged audio object
with truthy data (source lines 351-357), otherwise left undefined. -/
def itemSampleRate : Chunk → Option Nat
  | .audioObj d m => if d.truthy then mimeRate m else none
  | _ => none

/-- The `outputSampleRate` local: `sampleRate || OUTPUT_SAMPLE_RATE` (source
line 387) falls back to the default when the parsed rate is absent or `0`
(JS falsiness). -/
def itemOutputRate (queueItem : Chunk) : Nat :=
  match itemSampleRate queueItem with
  | some r => if r = 0 then OUTPUT_SAMPLE_RATE else r
  | none => OUTPUT_SAMPLE_RATE

/-- The WAV-construction branches of `_processQueue` (source lines 393-427):
a string is base64-decoded, a buffer is used as is, anything else is an
unsupported audio data format and is rejected.  The container is always
built with the module constants `OUTPUT_CHANNELS` and
`OUTPUT_BITS_PER_SAMPLE`. -/
def buildWav : JSData → Nat → Option (List Nat)
  | .jsStr s, rate => some (_createWavFromPcm (base64Decode s) rate
      OUTPUT_CHANNELS OUTPUT_BITS_PER_SAMPLE)
  | .bytes bs, rate => some (_createWavFromPcm bs rate
      OUTPUT_CHANNELS OUTPUT_BITS_PER_SAMPLE)
  | .otherVal _, _ => none

/-- The WAV size validation of `_processQueue` (source lines 439-449):
reject a missing result or one shorter than a 44-byte header. -/
def validateWav : Option (List Nat) → Option (List Nat)
  | none => none
  | some wav => if wav.length < 44 then none else some wav

/-- Synchronous processing of one queue item (source lines 338-449): `some
wav` when a WAV container was built and handed to the decoder, `none` when
the item is discarded (falsy `audioData`, unsupported format, or failed
validation). -/
def processItem (queueItem : Chunk) : Option (List Nat) :=
  if (itemAudioData queueItem).truthy = false then none
  else validateWav (buildWav (itemAudioData queueItem)
    (itemOutputRate queueItem))

/-! ### The service state machine

The module-level mutable state of the service, and one step function per
external event.  A started render (a `playerNode` whose `start` succeeded,
or an in-flight `decodeAudioData`) is counted in `activeRenders`; it leaves
that count through its `onended` callback (`renderComplete`) or its
decode/play failure path (`renderFailure`), both of which reset `isPlaying`
and re-enter `_processQueue`. -/

/-- The module-level mutable state (source lines 21-27). -/
structure SvcState where
  isPlaying : Bool
  audioQueue : List Chunk
  activeRenders : Nat
  bufferAggregator : List Chunk
  bufferTimer : Bool
deriving Repr, DecidableEq

/-- The initial module state. -/
def initState : SvcState :=
  { isPlaying := false, audioQueue := [], activeRenders := 0,
    bufferAggregator := [], bufferTimer := false }

/-- The external events that drive the service:
* `submit a` — a `playAudioChunk(a)` call (`none` is a null/undefined
  argument);
* `timerFire` — the pending aggregation deadline timer fires
  (`setTimeout(_processBufferedChunks, MAX_BUFFER_WAIT_MS)`);
* `enqueue i` — `audioQueue.push(i)` followed by `_processQueue()`, as
  performed by `_processBufferedChunks` for the merged chunk;
* `renderComplete` — a started render's `onended` callback runs;
* `renderFailure` — a started render fails (decode error or play failure)
  and its catch handler runs;
* `clear` — a `clearPlaybackQueue()` call. -/
inductive Event where
  | submit (a : Option Chunk)
  | timerFire
  | enqueue (i : Chunk)
  | renderComplete
  | renderFailure
  | clear
deriving Repr, DecidableEq

/-- The recursion of `_processQueue` once `isPlaying` is false: shift items
off the queue until one yields a WAV (that render is started: `isPlaying`
stays true and the render counts as active) or the queue empties.  Returns
the final `(isPlaying, audioQueue, activeRenders)`. -/
def processQueueGo : List Chunk → Nat → Bool × List Chunk × Nat
  | [], act => (false, [], act)
  | item :: rest, act =>
      match processItem item with
      | some _ => (true, rest, act + 1)
      | none => processQueueGo rest act

/-- Model of a `_processQueue()` call (source lines 329-485): returns
immediately when already playing or the queue is empty. -/
def processQueue (s : SvcState) : SvcState :=
  if s.isPlaying then s
  else
    let r := processQueueGo s.audioQueue s.activeRenders
    { s with isPlaying := r.1, audioQueue := r.2.1, activeRenders := r.2.2 }

/-- The mimeType `_processBufferedChunks` attaches to a merged chunk. -/
def mimeOfRate (r : Nat) : String :=
  "audio/pcm;rate=" ++ toString r

/-- Model of `_processBufferedChunks()` (source lines 566-597): cancel any
pending timer; if the buffer is nonempty, merge it, clear it, and (when the
merge produced a result) push the merged chunk onto `audioQueue` and run
`_processQueue`.  Also returns the list of merge results flushed by this
call (one or none). -/
def processBufferedChunks (s : SvcState) : SvcState × List CombineResult :=
  let s1 : SvcState := { s with bufferTimer := false }
  if s1.bufferAggregator.isEmpty then (s1, [])
  else
    let combined := _combineAudioChunks s1.bufferAggregator
    let s2 : SvcState := { s1 with bufferAggregator := [] }
    match combined with
    | some res =>
        let combinedChunk : Chunk :=
          .audioObj (.bytes res.data) (some (mimeOfRate res.sampleRate))
        (processQueue { s2 with audioQueue := s2.audioQueue ++ [combinedChunk] },
         [res])
    | none => (s2, [])

/-- Model of `playAudioChunk(audioData)` (source lines 603-656): a falsy
argument is rejected with a warning; otherwise the chunk is appended to
`bufferAggregator`, the deadline timer is armed when it is the first chunk
of the window, and the window is flushed immediately when the chunk count
reaches `BUFFER_CHUNK_THRESHOLD`. -/
def playAudioChunk (s : SvcState) (audioData : Option Chunk) :
    SvcState × List CombineResult :=
  match audioData with
  | none => (s, [])
  | some c =>
      if c.truthy = false then (s, [])
      else
        let buf := s.bufferAggregator ++ [c]
        let timer := if buf.length = 1 then true else s.bufferTimer
        let s1 : SvcState := { s with bufferAggregator := buf,
                                      bufferTimer := timer }
        if BUFFER_CHUNK_THRESHOLD ≤ buf.length then processBufferedChunks s1
        else (s1, [])

/-- One step of the service under an external event, returning the new state
and the merge results flushed during the step.  `renderComplete` and
`renderFailure` model the two callback sites (source lines 459-463 and
469-483): both reset `isPlaying`, retire the finished/failed render, and
call `_processQueue()`; they can only run when a render was started.
`clear` models `clearPlaybackQueue()` (source lines 695-721): it empties
`audioQueue` and `bufferAggregator`, cancels a pending buffer timer and
resets `isPlaying` — it does not touch a started render, which keeps
playing until its own callback fires. -/
def step (s : SvcState) : Event → SvcState × List CombineResult
  | .submit a => playAudioChunk s a
  | .timerFire =>
      if s.bufferTimer then processBufferedChunks s else (s, [])
  | .enqueue i =>
      (processQueue { s with audioQueue := s.audioQueue ++ [i] }, [])
  | .renderComplete =>
      if 0 < s.activeRenders then
        (processQueue { s with isPlaying := false,
                               activeRenders := s.activeRenders - 1 }, [])
      else (s, [])
  | .renderFailure =>
      if 0 < s.activeRenders then
        (processQueue { s with isPlaying := false,
                               activeRenders := s.activeRenders - 1 }, [])
      else (s, [])
  | .clear =>
      ({ s with audioQueue := [], bufferAggregator := [],
                bufferTimer := false, isPlaying := false }, [])

/-- Runs a list of events, collecting all flushed merge results. -/
def runEvents (s : SvcState) : List Event → SvcState × List CombineResult
  | [] => (s, [])
  | e :: es =>
      let r := step s e
      let r2 := runEvents r.1 es
      (r2.1, r.2 ++ r2.2)

/-- States reachable from the initial module state under the service's
events. -/
inductive Reachable : SvcState → Prop
  | init : Reachable initState
  | next (s : SvcState) (e : Event) : Reachable s → Reachable (step s e).1

/-! ### Queue-level theorems -/

theorem processQueue_bufferAggregator (s : SvcState) :
    (processQueue s).bufferAggregator = s.bufferAggregator := by
  rw [processQueue]; split <;> rfl

theorem processQueue_bufferTimer (s : SvcState) :
    (processQueue s).bufferTimer = s.bufferTimer := by
  rw [processQueue]; split <;> rfl

/-- Claim C3 (evaluating the code at the failing interleaving): after three
chunks are submitted — which flushes the window and starts a render — a
`clearPlaybackQueue()` call resets `isPlaying` but leaves the started render
playing, so the service is in Idle with one active render; three further
submissions then start a second render while the first is still active, so
two renders are active at once.  This violates the claimed at-most-one-
active-render invariant (and `clearPlaybackQueue`'s own doc comment, which
says it stops current playback). -/
theorem C3_clear_mid_render_leaves_active_render :
    (runEvents initState [Event.submit (some (Chunk.bytes [1])),
        Event.submit (some (Chunk.bytes [2])),
        Event.submit (some (Chunk.bytes [3])), Event.clear]).1
      = { isPlaying := false, audioQueue := [], activeRenders := 1,
          bufferAggregator := [], bufferTimer := false }
    ∧ (runEvents initState [Event.submit (some (Chunk.bytes [1])),
        Event.submit (some (Chunk.bytes [2])),
        Event.submit (some (Chunk.bytes [3])), Event.clear,
        Event.submit (some (Chunk.bytes [4])),
        Event.submit (some (Chunk.bytes [5])),
        Event.submit (some (Chunk.bytes [6]))]).1
      = { isPlaying := true, audioQueue := [], activeRenders := 2,
          bufferAggregator := [], bufferTimer := false } := by
  exact ⟨rfl, rfl⟩

/-- Claim C4: from every state, `clear()` drops all queued and buffered
items, cancels a pending deadline timer and forces the Idle state
(`isPlaying = false`); it is idempotent (a second `clear()` from the cleared
state changes nothing); and the next enqueue of a renderable item after a
`clear()` starts a fresh render with no residual queued items.  `clear()`
holds no reference to a started `playerNode`, so cancelling an in-flight
render is not possible for it; the orphaned render count is carried over
unchanged. -/
theorem C4_clear_forces_idle_and_is_idempotent (s : SvcState) :
    step s Event.clear
      = ({ isPlaying := false, audioQueue := [],
           activeRenders := s.activeRenders, bufferAggregator := [],
           bufferTimer := false }, [])
    ∧ step (step s Event.clear).1 Event.clear = step s Event.clear
    ∧ ∀ i : Chunk, (processItem i).isSome = true →
        step (step s Event.clear).1 (Event.enqueue i)
          = ({ isPlaying := true, audioQueue := [],
               activeRenders := s.activeRenders + 1, bufferAggregator := [],
               bufferTimer := false }, []) := by
  refine ⟨rfl, rfl, ?_⟩
  intro i h
  obtain ⟨w, hw⟩ := Option.isSome_iff_exists.mp h
  simp [step, processQueue, processQueueGo, hw]

/-- Claim C4, instantiated at a mid-render state with queued and buffered
residue, and a renderable next item. -/
theorem C4_clear_forces_idle_and_is_idempotent_witness :
    step ⟨true, [Chunk.bytes [9]], 1, [Chunk.bytes [8]], true⟩ Event.clear
      = ({ isPlaying := false, audioQueue := [], activeRenders := 1,
           bufferAggregator := [], bufferTimer := false }, [])
    ∧ step (step ⟨true, [Chunk.bytes [9]], 1, [Chunk.bytes [8]], true⟩
          Event.clear).1 Event.clear
        = step ⟨true, [Chunk.bytes [9]], 1, [Chunk.bytes [8]], true⟩
            Event.clear
    ∧ step (step ⟨true, [Chunk.bytes [9]], 1, [Chunk.bytes [8]], true⟩
          Event.clear).1 (Event.enqueue (Chunk.bytes [0, 1]))
        = ({ isPlaying := true, audioQueue := [], activeRenders := 2,
             bufferAggregator := [], bufferTimer := false }, []) :=
  ⟨(C4_clear_forces_idle_and_is_idempotent _).1,
   (C4_clear_forces_idle_and_is_idempotent _).2.1,
   (C4_clear_forces_idle_and_is_idempotent
      ⟨true, [Chunk.bytes [9]], 1, [Chunk.bytes [8]], true⟩).2.2
     (Chunk.bytes [0, 1]) (by decide)⟩

/-- Claim C5: a render failure is handled exactly like a render completion
(both callback sites reset `isPlaying`, retire the render and re-enter
`_processQueue`), and an item whose synchronous processing fails
(null/empty data, unsupported shape, WAV validation) is discarded and the
queue immediately advances by exactly one step to the next item — so a
corrupt item never leaves the queue stuck in Playing without progress. -/
theorem C5_render_failure_advances_queue :
    (∀ s : SvcState, step s Event.renderFailure = step s Event.renderComplete)
    ∧ ∀ (s : SvcState) (i : Chunk) (rest : List Chunk),
        s.isPlaying = false → processItem i = none →
        processQueue { s with audioQueue := i :: rest }
          = processQueue { s with audioQueue := rest } := by
  refine ⟨fun s => rfl, ?_⟩
  intro s i rest hp hi
  simp [processQueue, hp, processQueueGo, hi]

/-- Claim C5, instantiated: failing and completing coincide at the initial
state, and an unsupported queued item is skipped in favour of the next. -/
theorem C5_render_failure_advances_queue_witness :
    step initState Event.renderFailure = step initState Event.renderComplete
    ∧ processQueue { initState with
          audioQueue := [Chunk.unsupported true, Chunk.bytes [1]] }
        = processQueue { initState with audioQueue := [Chunk.bytes [1]] } :=
  ⟨C5_render_failure_advances_queue.1 initState,
   C5_render_failure_advances_queue.2 initState (Chunk.unsupported true)
     [Chunk.bytes [1]] rfl (by decide)⟩

/-- Claim C6: for every flushed window, the sample rate of the merge result
is the last rate declared by a chunk's mimeType annotation while scanning the
window in order (so with conflicting declarations the last one scanned wins),
and the process-wide default `OUTPUT_SAMPLE_RATE = 24000` when no chunk
declares a rate. -/
theorem C6_declared_rate_last_wins (cs : List Chunk) (h : cs ≠ []) :
    (_combineAudioChunks cs).map CombineResult.sampleRate
      = some (((cs.filterMap declaredRate).getLast?).getD OUTPUT_SAMPLE_RATE)
    := by
  rw [combineAudioChunks_spec cs h]; rfl

/-- Claim C6, instantiated: two chunks declaring 16000 Hz and 44100 Hz merge
at the later declaration, 44100 Hz. -/
theorem C6_declared_rate_last_wins_witness :
    (_combineAudioChunks
        [Chunk.audioObj (JSData.bytes [1, 2]) (some "audio/pcm;rate=16000"),
         Chunk.audioObj (JSData.bytes [3]) (some "audio/pcm;rate=44100")]).map
        CombineResult.sampleRate
      = some 44100 :=
  C6_declared_rate_last_wins _ (by decide)

/-- Claim C8 counterexample to the "with a warning" part: a window holding an
unsupported chunk among three valid ones flushes with the unsupported chunk
dropped and the rest merged — but the combine loop emits no warning at all
(the source's loop has no `console.warn`), so the drop is silent. -/
theorem C8_unsupported_chunk_dropped_without_warning :
    combineWarnLog [Chunk.unsupported true, Chunk.bytes [10],
        Chunk.bytes [20], Chunk.bytes [30]] = []
    ∧ _combineAudioChunks [Chunk.unsupported true, Chunk.bytes [10],
        Chunk.bytes [20], Chunk.bytes [30]]
      = some ⟨[10, 20, 30], OUTPUT_SAMPLE_RATE⟩ :=
  ⟨rfl, by decide⟩

/-- Claim C8 (amended): a window containing a chunk of unsupported shape
flushes with that chunk dropped silently, and all remaining chunks of the
window are merged exactly as if the unsupported chunk were absent — a single
malformed chunk never aborts aggregation of the rest. -/
theorem C8_unsupported_chunk_dropped_rest_merged (pre post : List Chunk)
    (t : Bool) :
    _combineAudioChunks (pre ++ Chunk.unsupported t :: post)
      = some ⟨((pre ++ post).filterMap chunkPcm).flatten,
              (((pre ++ post).filterMap declaredRate).getLast?).getD
                OUTPUT_SAMPLE_RATE⟩ := by
  rw [combineAudioChunks_spec _ (by simp)]
  simp [List.filterMap_append, List.filterMap_cons, chunkPcm, declaredRate]

theorem createWavFromPcm_length (pcm : List Nat) (r c b : Nat) :
    (_createWavFromPcm pcm r c b).length = 44 + pcm.length := by
  rw [createWavFromPcm_bytes, createWavHeader_bytes]
  simp
  omega

theorem validateWav_createWav (pcm : List Nat) (r c b : Nat) :
    validateWav (some (_createWavFromPcm pcm r c b))
      = some (_createWavFromPcm pcm r c b) := by
  have hlen : ¬ (_createWavFromPcm pcm r c b).length < 44 := by
    rw [createWavFromPcm_length]; omega
  simp only [validateWav, hlen, if_false]

theorem wav_mono16_fields (pcm : List Nat) (r : Nat) :
    readU16LE (_createWavFromPcm pcm r OUTPUT_CHANNELS OUTPUT_BITS_PER_SAMPLE)
        22 = OUTPUT_CHANNELS
    ∧ readU16LE (_createWavFromPcm pcm r OUTPUT_CHANNELS
        OUTPUT_BITS_PER_SAMPLE) 34 = OUTPUT_BITS_PER_SAMPLE := by
  rw [createWavFromPcm_bytes, createWavHeader_bytes]
  exact ⟨rfl, rfl⟩

/-- Every WAV container `_processQueue` builds uses the module constants for
channel count and bit depth; only the sample rate varies. -/
theorem processItem_shape (i : Chunk) (w : List Nat)
    (h : processItem i = some w) :
    ∃ pcm r, w = _createWavFromPcm pcm r OUTPUT_CHANNELS
        OUTPUT_BITS_PER_SAMPLE := by
  rw [processItem] at h
  split at h
  · exact absurd h (by simp)
  · rcases hd : itemAudioData i with bs | s | t <;> rw [hd] at h
    · rw [show buildWav (JSData.bytes bs) (itemOutputRate i)
          = some (_createWavFromPcm bs (itemOutputRate i) OUTPUT_CHANNELS
              OUTPUT_BITS_PER_SAMPLE) from rfl, validateWav_createWav] at h
      exact ⟨bs, itemOutputRate i, (Option.some.inj h).symm⟩
    · rw [show buildWav (JSData.jsStr s) (itemOutputRate i)
          = some (_createWavFromPcm (base64Decode s) (itemOutputRate i)
              OUTPUT_CHANNELS OUTPUT_BITS_PER_SAMPLE) from rfl,
          validateWav_createWav] at h
      exact ⟨base64Decode s, itemOutputRate i, (Option.some.inj h).symm⟩
    · exact absurd h (by simp [buildWav, validateWav])

/-- Claim C10: every container the pipeline builds for a queue item is
encoded with channel count `OUTPUT_CHANNELS = 1` and bit depth
`OUTPUT_BITS_PER_SAMPLE = 16`, regardless of the item's content or metadata:
the NumChannels field (offset 22) and the BitsPerSample field (offset 34)
of every rendered container equal 1 and 16. -/
theorem C10_every_container_mono_16bit (i : Chunk) (w : List Nat)
    (h : processItem i = some w) :
    readU16LE w 22 = 1 ∧ readU16LE w 34 = 16 := by
  obtain ⟨pcm, r, rfl⟩ := processItem_shape i w h
  exact wav_mono16_fields pcm r

/-- Claim C10, instantiated at a raw 2-byte chunk. -/
theorem C10_every_container_mono_16bit_witness :
    readU16LE (_createWavFromPcm [7, 8] OUTPUT_SAMPLE_RATE OUTPUT_CHANNELS
        OUTPUT_BITS_PER_SAMPLE) 22 = 1
    ∧ readU16LE (_createWavFromPcm [7, 8] OUTPUT_SAMPLE_RATE OUTPUT_CHANNELS
        OUTPUT_BITS_PER_SAMPLE) 34 = 16 :=
  C10_every_container_mono_16bit (Chunk.bytes [7, 8]) _ (by decide)

/-- Claim C2: for every sequence of well-formed chunks submitted within the
threshold count (at most `BUFFER_CHUNK_THRESHOLD` of them, with the deadline
timer firing afterwards when the threshold was not reached), exactly one
flush occurs — the run produces exactly one merge result — and its payload
is the byte concatenation of the chunks' payloads in submission order: a
base64 string chunk contributes its decoded bytes, a tagged audio object its
`data` field, and a raw buffer its bytes. -/
theorem C2_single_flush_concatenates_payloads (cs : List Chunk)
    (h0 : 0 < cs.length) (h3 : cs.length ≤ BUFFER_CHUNK_THRESHOLD)
    (hw : ∀ c ∈ cs, wellFormedChunk c) :
    ((runEvents initState
        (cs.map (fun c => Event.submit (some c))
          ++ if cs.length < BUFFER_CHUNK_THRESHOLD then [Event.timerFire]
             else [])).2).map CombineResult.data
      = [(cs.map chunkPayload).flatten] := by
  rcases cs with _ | ⟨a, _ | ⟨b, _ | ⟨c, _ | ⟨d, rest⟩⟩⟩⟩
  · simp at h0
  · obtain ⟨hat, hap⟩ := hw a (by simp)
    obtain ⟨pa, hpa⟩ := Option.isSome_iff_exists.mp hap
    simp [runEvents, step, playAudioChunk, hat, processBufferedChunks,
      initState, BUFFER_CHUNK_THRESHOLD,
      combineAudioChunks_spec, hpa, chunkPayload]
  · obtain ⟨hat, hap⟩ := hw a (by simp)
    obtain ⟨hbt, hbp⟩ := hw b (by simp)
    obtain ⟨pa, hpa⟩ := Option.isSome_iff_exists.mp hap
    obtain ⟨pb, hpb⟩ := Option.isSome_iff_exists.mp hbp
    simp [runEvents, step, playAudioChunk, hat, hbt, processBufferedChunks,
      initState, BUFFER_CHUNK_THRESHOLD,
      combineAudioChunks_spec, hpa, hpb, chunkPayload]
  · obtain ⟨hat, hap⟩ := hw a (by simp)
    obtain ⟨hbt, hbp⟩ := hw b (by simp)
    obtain ⟨hct, hcp⟩ := hw c (by simp)
    obtain ⟨pa, hpa⟩ := Option.isSome_iff_exists.mp hap
    obtain ⟨pb, hpb⟩ := Option.isSome_iff_exists.mp hbp
    obtain ⟨pc, hpc⟩ := Option.isSome_iff_exists.mp hcp
    simp [runEvents, step, playAudioChunk, hat, hbt, hct,
      processBufferedChunks, initState, BUFFER_CHUNK_THRESHOLD,
      combineAudioChunks_spec, hpa, hpb, hpc, chunkPayload]
  · exfalso
    simp [BUFFER_CHUNK_THRESHOLD] at h3

/-- Claim C2, instantiated: one base64 chunk, one raw chunk and one tagged
chunk submitted together flush exactly once into the concatenation of their
payloads. -/
theorem C2_single_flush_concatenates_payloads_witness :
    ((runEvents initState [Event.submit (some (Chunk.b64 "AAEC")),
        Event.submit (some (Chunk.bytes [9])),
        Event.submit (some (Chunk.audioObj (JSData.bytes [7, 8])
          none))]).2).map CombineResult.data
      = [[0, 1, 2, 9, 7, 8]] :=
  C2_single_flush_concatenates_payloads
    [Chunk.b64 "AAEC", Chunk.bytes [9],
     Chunk.audioObj (JSData.bytes [7, 8]) none]
    (by decide) (by decide) (by decide)


theorem processBufferedChunks_agg (s : SvcState) :
    (processBufferedChunks s).1.bufferAggregator = [] := by
  rw [processBufferedChunks]
  dsimp only
  split
  · next hemp => simpa [List.isEmpty_iff] using hemp
  · cases h2 : _combineAudioChunks s.bufferAggregator with
    | none => simp [h2]
    | some res => simp [h2, processQueue_bufferAggregator]

theorem processBufferedChunks_timer (s : SvcState) :
    (processBufferedChunks s).1.bufferTimer = false := by
  rw [processBufferedChunks]
  dsimp only
  split
  · rfl
  · cases h2 : _combineAudioChunks s.bufferAggregator with
    | none => simp [h2]
    | some res => simp [h2, processQueue_bufferTimer]

theorem aggregator_window_inv (s : SvcState) (h : Reachable s) :
    (s.bufferTimer = true ↔ s.bufferAggregator ≠ [])
    ∧ s.bufferAggregator.length < BUFFER_CHUNK_THRESHOLD := by
  induction h with
  | init => exact ⟨by simp [initState], by simp [initState,
      BUFFER_CHUNK_THRESHOLD]⟩
  | next s e hs ih =>
      obtain ⟨ih1, ih2⟩ := ih
      cases e with
      | submit a =>
          cases a with
          | none => exact ⟨ih1, ih2⟩
          | some c =>
              by_cases hct : c.truthy = false
              · simpa [step, playAudioChunk, hct] using ⟨ih1, ih2⟩
              · have hct' : c.truthy = true := by
                  revert hct; cases c.truthy <;> simp
                rcases hagg : s.bufferAggregator
                  with _ | ⟨x, _ | ⟨y, _ | ⟨z, rest⟩⟩⟩
                · simp [step, playAudioChunk, hct', hagg,
                    BUFFER_CHUNK_THRESHOLD]
                · have htimer : s.bufferTimer = true :=
                    ih1.mpr (by simp [hagg])
                  simp [step, playAudioChunk, hct', hagg, htimer,
                    BUFFER_CHUNK_THRESHOLD]
                · simp [step, playAudioChunk, hct', hagg,
                    processBufferedChunks_agg, processBufferedChunks_timer,
                    BUFFER_CHUNK_THRESHOLD]
                · exfalso
                  rw [hagg] at ih2
                  simp [BUFFER_CHUNK_THRESHOLD] at ih2
                  omega
      | timerFire =>
          by_cases ht : s.bufferTimer
          · simp [step, ht, processBufferedChunks_agg,
              processBufferedChunks_timer, BUFFER_CHUNK_THRESHOLD]
          · have hagg : s.bufferAggregator = [] := by
              by_contra hne
              exact ht (ih1.mpr hne)
            simp [step, ht, hagg, BUFFER_CHUNK_THRESHOLD]
      | enqueue i =>
          simpa [step, processQueue_bufferAggregator,
            processQueue_bufferTimer] using ⟨ih1, ih2⟩
      | renderComplete =>
          by_cases ha : 0 < s.activeRenders <;>
            simpa [step, ha, processQueue_bufferAggregator,
              processQueue_bufferTimer] using ⟨ih1, ih2⟩
      | renderFailure =>
          by_cases ha : 0 < s.activeRenders <;>
            simpa [step, ha, processQueue_bufferAggregator,
              processQueue_bufferTimer] using ⟨ih1, ih2⟩
      | clear => exact ⟨by simp [step], by simp [step,
          BUFFER_CHUNK_THRESHOLD]⟩


/-- Claim C7: the aggregation window is flushed exactly once per fill
cycle, by whichever of threshold and deadline occurs first and never both:
(a) in every reachable state the deadline timer is armed exactly when the
window is nonempty, and the window holds fewer than
`BUFFER_CHUNK_THRESHOLD` chunks;
(b) a chunk entering an empty window arms the timer and triggers no flush;
(c) a chunk that brings the window to the threshold triggers exactly one
flush immediately, emptying the window and cancelling the pending timer;
(d) the deadline timer firing over a nonempty window triggers exactly one
flush, emptying the window and disarming the timer;
(e) a cancelled (unarmed) timer event is a no-op with no flush — so after a
threshold flush the timer can never deliver a second flush of the same
window. -/
theorem C7_flush_exactly_once_per_window :
    (∀ s : SvcState, Reachable s →
      (s.bufferTimer = true ↔ s.bufferAggregator ≠ [])
      ∧ s.bufferAggregator.length < BUFFER_CHUNK_THRESHOLD)
    ∧ (∀ (s : SvcState) (c : Chunk), s.bufferAggregator = [] →
        c.truthy = true →
        (step s (Event.submit (some c))).1.bufferTimer = true
        ∧ (step s (Event.submit (some c))).2 = [])
    ∧ (∀ (s : SvcState) (c : Chunk),
        s.bufferAggregator.length = BUFFER_CHUNK_THRESHOLD - 1 →
        c.truthy = true →
        ((step s (Event.submit (some c))).2).length = 1
        ∧ (step s (Event.submit (some c))).1.bufferAggregator = []
        ∧ (step s (Event.submit (some c))).1.bufferTimer = false)
    ∧ (∀ s : SvcState, s.bufferTimer = true → s.bufferAggregator ≠ [] →
        ((step s Event.timerFire).2).length = 1
        ∧ (step s Event.timerFire).1.bufferAggregator = []
        ∧ (step s Event.timerFire).1.bufferTimer = false)
    ∧ (∀ s : SvcState, s.bufferTimer = false →
        step s Event.timerFire = (s, [])) := by
  refine ⟨aggregator_window_inv, ?_, ?_, ?_, ?_⟩
  · intro s c hagg hct
    simp [step, playAudioChunk, hct, hagg, BUFFER_CHUNK_THRESHOLD]
  · intro s c hlen hct
    obtain ⟨x, y, hagg⟩ := List.length_eq_two.mp hlen
    simp [step, playAudioChunk, hct, hagg, BUFFER_CHUNK_THRESHOLD,
      processQueue_bufferAggregator, processQueue_bufferTimer,
      processBufferedChunks, combineAudioChunks_spec]
  · intro s ht hne
    simp [step, ht, processQueue_bufferAggregator, processQueue_bufferTimer,
      processBufferedChunks, List.isEmpty_iff, hne,
      combineAudioChunks_spec]
  · intro s ht
    simp [step, ht]


/-- Claim C7, instantiated: the invariant at the initial state; arming on a
first chunk; the threshold flush over a two-chunk window; the deadline flush
over the same window; and the cancelled-timer no-op. -/
theorem C7_flush_exactly_once_per_window_witness :
    ((initState.bufferTimer = true ↔ initState.bufferAggregator ≠ [])
      ∧ initState.bufferAggregator.length < BUFFER_CHUNK_THRESHOLD)
    ∧ ((step initState (Event.submit (some (Chunk.bytes [7])))).1.bufferTimer
          = true
        ∧ (step initState (Event.submit (some (Chunk.bytes [7])))).2 = [])
    ∧ (((step ⟨false, [], 0, [Chunk.bytes [1], Chunk.bytes [2]], true⟩
            (Event.submit (some (Chunk.bytes [3])))).2).length = 1
        ∧ (step ⟨false, [], 0, [Chunk.bytes [1], Chunk.bytes [2]], true⟩
            (Event.submit (some (Chunk.bytes [3])))).1.bufferAggregator = []
        ∧ (step ⟨false, [], 0, [Chunk.bytes [1], Chunk.bytes [2]], true⟩
            (Event.submit (some (Chunk.bytes [3])))).1.bufferTimer = false)
    ∧ (((step ⟨false, [], 0, [Chunk.bytes [1], Chunk.bytes [2]], true⟩
            Event.timerFire).2).length = 1
        ∧ (step ⟨false, [], 0, [Chunk.bytes [1], Chunk.bytes [2]], true⟩
            Event.timerFire).1.bufferAggregator = []
        ∧ (step ⟨false, [], 0, [Chunk.bytes [1], Chunk.bytes [2]], true⟩
            Event.timerFire).1.bufferTimer = false)
    ∧ step initState Event.timerFire = (initState, []) :=
  ⟨C7_flush_exactly_once_per_window.1 initState Reachable.init,
   C7_flush_exactly_once_per_window.2.1 initState (Chunk.bytes [7]) rfl rfl,
   C7_flush_exactly_once_per_window.2.2.1
     ⟨false, [], 0, [Chunk.bytes [1], Chunk.bytes [2]], true⟩
     (Chunk.bytes [3]) (by decide) rfl,
   C7_flush_exactly_once_per_window.2.2.2.1
     ⟨false, [], 0, [Chunk.bytes [1], Chunk.bytes [2]], true⟩ rfl
     (by decide),
   C7_flush_exactly_once_per_window.2.2.2.2 initState rfl⟩


/-! ### `cleanupTempFiles` (source lines 724-756) -/

/-- Lexicographic comparison of two character lists by code point; for the
janitor's ASCII `audio_<timestamp>_<n>.wav` filenames this agrees with the
UTF-16 code-unit order JS `Array.prototype.sort()` uses. -/
def charsLe : List Char → List Char → Bool
  | [], _ => true
  | _ :: _, [] => false
  | a :: as, b :: bs =>
      if a.toNat < b.toNat then true
      else if b.toNat < a.toNat then false
      else charsLe as bs

/-- Lexicographic filename order. -/
def fileLe (a b : String) : Bool := charsLe a.data b.data

/-- Does the character list begin with the given characters?
(`String.prototype.startsWith`). -/
def leadsWith : List Char → List Char → Bool
  | _, [] => true
  | [], _ :: _ => false
  | a :: as, b :: bs => a == b && leadsWith as bs

/-- The filename filter (source lines 728-730):
`file.startsWith("audio_") && file.endsWith(".wav")`. -/
def isAudioTempFile (f : String) : Bool :=
  leadsWith f.data "audio_".data
    && leadsWith f.data.reverse ".wav".data.reverse

/-- Inserts a filename into a sorted list (ascending `fileLe`). -/
def insertFile (f : String) : List String → List String
  | [] => [f]
  | g :: gs => if fileLe f g then f :: g :: gs else g :: insertFile f gs

/-- Model of `audioFiles.sort()`: lexicographically ascending.  Insertion
sort is stable, like the sort the runtime provides; for the total order
`fileLe` any sorted permutation is extensionally the same list. -/
def sortFiles : List String → List String
  | [] => []
  | f :: fs => insertFile f (sortFiles fs)

/-- The delete loop (source lines 742-748), over the files sorted most
recent first with the first five retained: deletes in order; a failing
`deleteAsync` rejects, aborting the loop into the surrounding catch, which
logs the error.  Returns the deleted files and whether an error was
caught. -/
def deleteLoop (deleteFails : String → Bool) :
    List String → List String × Bool
  | [] => ([], false)
  | f :: fs =>
      if deleteFails f then ([], true)
      else
        let r := deleteLoop deleteFails fs
        (f :: r.1, r.2)

/-- Model of `cleanupTempFiles()` (source lines 724-756): list the cache
directory (the listing itself may fail, modelled by the `Except` argument),
keep the filenames matching `audio_*.wav`, and when more than five remain,
sort them, reverse (most recent first, since the names embed their
`Date.now()` timestamp) and delete everything past the first five.  The
whole body runs inside `try/catch`, so the function always returns: the
`Bool` records whether an error was caught and logged. -/
def cleanupTempFiles (listing : Except String (List String))
    (deleteFails : String → Bool) : List String × Bool :=
  match listing with
  | .error _ => ([], true)
  | .ok files =>
      let audioFiles := files.filter isAudioTempFile
      if 5 < audioFiles.length then
        deleteLoop deleteFails ((sortFiles audioFiles).reverse.drop 5)
      else ([], false)

theorem charsLe_total (as bs : List Char) :
    charsLe as bs = true ∨ charsLe bs as = true := by
  induction as generalizing bs with
  | nil => left; rfl
  | cons a as ih =>
      cases bs with
      | nil => right; rfl
      | cons b bs =>
          rcases Nat.lt_trichotomy a.toNat b.toNat with h | h | h
          · left; simp [charsLe, h]
          · rcases ih bs with h2 | h2
            · left; simp [charsLe, h, h2]
            · right
              simp [charsLe, h.symm, h2]
          · right; simp [charsLe, h]

theorem charsLe_trans (as bs cs : List Char)
    (h1 : charsLe as bs = true) (h2 : charsLe bs cs = true) :
    charsLe as cs = true := by
  induction as generalizing bs cs with
  | nil => rfl
  | cons a as ih =>
      cases bs with
      | nil => simp [charsLe] at h1
      | cons b bs =>
          cases cs with
          | nil => simp [charsLe] at h2
          | cons cch cs =>
              simp only [charsLe] at h1 h2 ⊢
              split at h1
              · next hab =>
                  split at h2
                  · next hbc => simp [show a.toNat < cch.toNat by omega]
                  · split at h2
                    · simp at h2
                    · next hcb hbc =>
                        simp [show a.toNat < cch.toNat by omega]
              · split at h1
                · simp at h1
                · next hba hab =>
                    split at h2
                    · next hbc =>
                        simp [show a.toNat < cch.toNat by omega]
                    · split at h2
                      · simp at h2
                      · next hcb hbc =>
                          have : ¬ a.toNat < cch.toNat := by omega
                          have : ¬ cch.toNat < a.toNat := by omega
                          simp [*]
                          exact ih bs cs h1 h2

theorem fileLe_total (a b : String) :
    fileLe a b = true ∨ fileLe b a = true := charsLe_total _ _

theorem fileLe_trans (a b cf : String) (h1 : fileLe a b = true)
    (h2 : fileLe b cf = true) : fileLe a cf = true :=
  charsLe_trans _ _ _ h1 h2

theorem insertFile_perm (f : String) (l : List String) :
    List.Perm (insertFile f l) (f :: l) := by
  induction l with
  | nil => exact List.Perm.refl _
  | cons g gs ih =>
      rw [insertFile]
      split
      · exact List.Perm.refl _
      · exact (ih.cons g).trans (List.Perm.swap f g gs)

theorem sortFiles_perm (l : List String) : List.Perm (sortFiles l) l := by
  induction l with
  | nil => exact List.Perm.refl _
  | cons f fs ih => exact (insertFile_perm f (sortFiles fs)).trans (ih.cons f)

theorem insertFile_sorted (f : String) (l : List String)
    (h : List.Pairwise (fun a b => fileLe a b = true) l) :
    List.Pairwise (fun a b => fileLe a b = true) (insertFile f l) := by
  induction l with
  | nil => simp [insertFile]
  | cons g gs ih =>
      rw [insertFile]
      split
      · next hfg =>
          constructor
          · intro x hx
            rcases List.mem_cons.mp hx with rfl | hx
            · exact hfg
            · exact fileLe_trans f g x hfg (List.rel_of_pairwise_cons h hx)
          · exact h
      · next hfg =>
          have hgf : fileLe g f = true := by
            rcases fileLe_total f g with h2 | h2
            · exact absurd h2 hfg
            · exact h2
          constructor
          · intro x hx
            rcases List.mem_cons.mp ((insertFile_perm f gs).mem_iff.mp hx)
              with rfl | hx
            · exact hgf
            · exact List.rel_of_pairwise_cons h hx
          · exact ih (List.Pairwise.sublist (List.sublist_cons_self g gs) h)

theorem sortFiles_sorted (l : List String) :
    List.Pairwise (fun a b => fileLe a b = true) (sortFiles l) := by
  induction l with
  | nil => simp [sortFiles]
  | cons f fs ih => exact insertFile_sorted f (sortFiles fs) ih

theorem deleteLoop_all_ok (l : List String) :
    deleteLoop (fun _ => false) l = (l, false) := by
  induction l with
  | nil => rfl
  | cons f fs ih => simp [deleteLoop, ih]

theorem deleteLoop_subset (df : String → Bool) (l : List String) :
    ∀ x ∈ (deleteLoop df l).1, x ∈ l := by
  induction l with
  | nil => intro x hx; simp [deleteLoop] at hx
  | cons f fs ih =>
      intro x hx
      rw [deleteLoop] at hx
      split at hx
      · simp at hx
      · rcases List.mem_cons.mp hx with rfl | hx
        · exact List.mem_cons_self x fs
        · exact List.mem_cons_of_mem f (ih x hx)

theorem sorted_rev_take_drop (l : List String) (k : Nat)
    (h : List.Pairwise (fun a b => fileLe a b = true) l) :
    ∀ d ∈ l.reverse.drop k, ∀ r ∈ l.reverse.take k, fileLe d r = true := by
  intro d hd r hr
  have hrev : List.Pairwise (fun a b => fileLe b a = true) l.reverse :=
    List.pairwise_reverse.mpr h
  have := List.pairwise_append.mp
    (by rw [List.take_append_drop]; exact hrev : List.Pairwise
      (fun a b => fileLe b a = true) (l.reverse.take k ++ l.reverse.drop k))
  exact this.2.2 r hr d hd


/-- Claim C9: for every directory listing at a janitor sweep, the sweep
retains exactly the five most recent matching `audio_*.wav` temp files
(the five greatest filenames — most recent, as the names embed their
creation timestamp) and deletes all the others, in the no-error case; a
listing failure is caught and logged; nothing is ever deleted when at most
five files match; and even when deletions fail mid-sweep, no retained
(top-five) file is ever deleted.  The model's total return type is the
source's surrounding `try/catch`: no error propagates to the caller. -/
theorem C9_janitor_retains_five_most_recent :
    (∀ (e : String) (df : String → Bool),
      cleanupTempFiles (Except.error e) df = ([], true))
    ∧ (∀ files : List String,
        5 < (files.filter isAudioTempFile).length →
        cleanupTempFiles (Except.ok files) (fun _ => false)
          = ((sortFiles (files.filter isAudioTempFile)).reverse.drop 5,
             false)
        ∧ ((sortFiles (files.filter isAudioTempFile)).reverse.take 5).length
            = 5
        ∧ List.Perm
            ((sortFiles (files.filter isAudioTempFile)).reverse.take 5
              ++ (sortFiles (files.filter isAudioTempFile)).reverse.drop 5)
            (files.filter isAudioTempFile)
        ∧ ∀ d ∈ (sortFiles (files.filter isAudioTempFile)).reverse.drop 5,
            ∀ r ∈ (sortFiles (files.filter isAudioTempFile)).reverse.take 5,
              fileLe d r = true)
    ∧ (∀ files : List String, (files.filter isAudioTempFile).length ≤ 5 →
        cleanupTempFiles (Except.ok files) (fun _ => false) = ([], false))
    ∧ (∀ (files : List String) (df : String → Bool),
        ∀ x ∈ (cleanupTempFiles (Except.ok files) df).1,
          x ∈ (sortFiles (files.filter isAudioTempFile)).reverse.drop 5) := by
  refine ⟨fun e df => rfl, ?_, ?_, ?_⟩
  · intro files hlen
    refine ⟨?_, ?_, ?_, ?_⟩
    · rw [cleanupTempFiles]
      rw [if_pos hlen, deleteLoop_all_ok]
    · have h1 : (sortFiles (files.filter isAudioTempFile)).reverse.length
          = (files.filter isAudioTempFile).length := by
        rw [List.length_reverse, (sortFiles_perm _).length_eq]
      rw [List.length_take, h1]
      omega
    · rw [List.take_append_drop]
      exact (List.reverse_perm _).trans (sortFiles_perm _)
    · exact sorted_rev_take_drop _ 5 (sortFiles_sorted _)
  · intro files hlen
    rw [cleanupTempFiles]
    rw [if_neg (by omega)]
  · intro files df x hx
    rw [cleanupTempFiles] at hx
    split at hx
    · exact deleteLoop_subset df _ x hx
    · simp at hx


/-- Claim C9, instantiated: a listing of six matching files and one
non-matching file keeps the five greatest and deletes `audio_10.wav`; a
single-file listing deletes nothing; a listing failure returns cleanly; and
with every delete failing, nothing outside the delete set is touched. -/
theorem C9_janitor_retains_five_most_recent_witness :
    cleanupTempFiles (Except.error "boom") (fun _ => false) = ([], true)
    ∧ (cleanupTempFiles (Except.ok ["audio_10.wav", "note.txt",
          "audio_12.wav", "audio_11.wav", "audio_15.wav", "audio_13.wav",
          "audio_14.wav"]) (fun _ => false)
        = (["audio_10.wav"], false)
      ∧ (["audio_15.wav", "audio_14.wav", "audio_13.wav", "audio_12.wav",
          "audio_11.wav"] : List String).length = 5
      ∧ List.Perm (["audio_15.wav", "audio_14.wav", "audio_13.wav",
          "audio_12.wav", "audio_11.wav"] ++ ["audio_10.wav"])
          ["audio_10.wav", "audio_12.wav", "audio_11.wav", "audio_15.wav",
           "audio_13.wav", "audio_14.wav"]
      ∧ ∀ d ∈ ["audio_10.wav"],
          ∀ r ∈ ["audio_15.wav", "audio_14.wav", "audio_13.wav",
                 "audio_12.wav", "audio_11.wav"], fileLe d r = true)
    ∧ cleanupTempFiles (Except.ok ["audio_1.wav"]) (fun _ => false)
        = ([], false)
    ∧ ∀ x ∈ (cleanupTempFiles (Except.ok ["audio_10.wav", "note.txt",
          "audio_12.wav", "audio_11.wav", "audio_15.wav", "audio_13.wav",
          "audio_14.wav"]) (fun _ => true)).1,
        x ∈ ["audio_10.wav"] :=
  ⟨C9_janitor_retains_five_most_recent.1 "boom" (fun _ => false),
   C9_janitor_retains_five_most_recent.2.1 ["audio_10.wav", "note.txt",
     "audio_12.wav", "audio_11.wav", "audio_15.wav", "audio_13.wav",
     "audio_14.wav"] (by decide),
   C9_janitor_retains_five_most_recent.2.2.1 ["audio_1.wav"] (by decide),
   C9_janitor_retains_five_most_recent.2.2.2 ["audio_10.wav", "note.txt",
     "audio_12.wav", "audio_11.wav", "audio_15.wav", "audio_13.wav",
     "audio_14.wav"] (fun _ => true)⟩

end AudioOutputService
